import Mathlib

/-!
Verification of the gh-generate-codeql-report repository: a shallow embedding
of the alert fetch client (pkg/codeql/client.go), the report orchestrator
(cmd/root.go, generateReport) and the tabular reader/writer (pkg/csv), with
theorems settling the specification's claims about them.
-/

set_option maxHeartbeats 1000000

namespace CodeqlReport

/-- Alert, from pkg/codeql/client.go: processed CodeQL alert data. -/
structure Alert where
  owner : String
  repo : String
  id : Int
  severity : String
  shortDesc : String
  fullDesc : String
  filePath : String
  startLine : Int
  startColumn : Int
  endLine : Int
  endColumn : Int
deriving DecidableEq

/-- The rate signal carried by a GitHub API response (github.Rate): the
remaining-call count and the reset time (modelled as an absolute instant
on an integer time line). -/
structure Rate where
  remaining : Int
  reset : Int
deriving DecidableEq

/-- The part of a github.Response the client inspects: HTTP status code and
rate signal. -/
structure Response where
  statusCode : Int
  rate : Rate
deriving DecidableEq

/-- The location data of the most recent instance of a GitHub code-scanning
alert, as read by GetAlert through the go-github getters. -/
structure GHLocation where
  path : String
  startLine : Int
  startColumn : Int
  endLine : Int
  endColumn : Int
deriving DecidableEq

/-- The fields of a github.Alert that GetAlert reads. -/
structure GHAlert where
  number : Int
  securitySeverityLevel : String
  description : String
  fullDescription : String
  location : GHLocation
deriving DecidableEq

/-- One outcome of the underlying ghClient.CodeScanning.GetAlert call:
either a successful alert with its response, or an error with the (possibly
absent) response. The list of attempts is the oracle for successive calls
issued by the retry loop. -/
inductive Attempt where
  | ok (alert : GHAlert) (resp : Option Response)
  | fail (resp : Option Response) (err : String)
deriving DecidableEq

/-- The client's mutable state: the stored lastRate field. -/
structure ClientState where
  lastRate : Option Rate
deriving DecidableEq

/-- Builds the returned Alert from owner, repo and the fetched GitHub alert,
mirroring the struct literal at the end of GetAlert. -/
def mkAlert (owner repo : String) (gh : GHAlert) : Alert :=
  { owner := owner
    repo := repo
    id := gh.number
    severity := gh.securitySeverityLevel
    shortDesc := gh.description
    fullDesc := gh.fullDescription
    filePath := gh.location.path
    startLine := gh.location.startLine
    startColumn := gh.location.startColumn
    endLine := gh.location.endLine
    endColumn := gh.location.endColumn }

/-- The rate-limit test of GetAlert on a failed call: a non-nil response with
HTTP 403 (StatusForbidden), zero remaining quota, and a reset time strictly
after the current instant. -/
def isRateLimitCase : Option Response → Int → Bool
  | some r, now => decide (r.statusCode = 403) && decide (r.rate.remaining = 0)
      && decide (now < r.rate.reset)
  | none, _ => false

/-- Observable trace of one GetAlert invocation: final result, the response
accompanying a success (if any), the client state on return, the number of
requests issued, the sleep durations in order, the successive values stored
into lastRate, and the instant at which the call returns. -/
structure GetAlertResult where
  result : Except String Alert
  okResp : Option Response
  finalState : ClientState
  requests : Nat
  sleeps : List Int
  rateUpdates : List Rate
  returnTime : Int

/-- The immediate-failure return of GetAlert for a non-rate-limited error:
one request, no sleeping, the error wrapped as "failed to get alert: ...",
and the client state unchanged. -/
def immediateFail (err : String) (st : ClientState) (now : Int) : GetAlertResult :=
  { result := Except.error ("failed to get alert: " ++ err)
    okResp := none
    finalState := st
    requests := 1
    sleeps := []
    rateUpdates := []
    returnTime := now }

/-- GetAlert from pkg/codeql/client.go as a function of the attempt oracle.
Each loop iteration consumes one attempt. On error with the rate-limit
condition the function sleeps reset − now (time advances to the reset
instant) and retries; on any other error it returns the wrapped error at
once; on success it stores the response's rate into lastRate (when a
response is present) and returns the built Alert. An exhausted oracle
(`[]`) means the loop is still running: `none`. -/
def getAlertGo (owner repo : String) (alertNumber : Int) (st : ClientState) :
    Int → List Attempt → Option GetAlertResult
  | _, [] => none
  | now, Attempt.ok gh resp :: _ =>
      some
        { result := Except.ok (mkAlert owner repo gh)
          okResp := resp
          finalState :=
            match resp with
            | some r => { lastRate := some r.rate }
            | none => st
          requests := 1
          sleeps := []
          rateUpdates :=
            match resp with
            | some r => [r.rate]
            | none => []
          returnTime := now }
  | now, Attempt.fail none err :: _ => some (immediateFail err st now)
  | now, Attempt.fail (some r) err :: rest =>
      if isRateLimitCase (some r) now then
        (getAlertGo owner repo alertNumber st r.rate.reset rest).map fun res =>
          { res with
              requests := res.requests + 1
              sleeps := (r.rate.reset - now) :: res.sleeps }
      else some (immediateFail err st now)

/-- Holds when every attempt the oracle will produce is a rate-limit
rejection with a future reset, each judged at the instant the loop reaches
it. -/
def allRateLimited : Int → List Attempt → Bool
  | _, [] => true
  | now, Attempt.fail (some r) _ :: rest =>
      isRateLimitCase (some r) now && allRateLimited r.rate.reset rest
  | _, _ => false

/-- A row of the input file keyed by column name, as produced by the Go map
built in ReadAllWithHeaders. Later insertions of the same key overwrite. -/
def Record := List (String × String)

/-- Go map read `m[k]` with the string zero value "" when the key is
absent. -/
def mapGet (m : Record) (k : String) : String :=
  match m.find? (fun p => p.1 = k) with
  | some p => p.2
  | none => ""

/-- Go map write `m[k] = v`: overwrite the existing entry or append. -/
def mapSet : Record → String → String → Record
  | [], k, v => [(k, v)]
  | (k0, v0) :: rest, k, v =>
      if k0 = k then (k, v) :: rest else (k0, v0) :: mapSet rest k v

/-- strings.Split on the "/" separator, character level. -/
def splitSlashChars : List Char → List (List Char)
  | [] => [[]]
  | c :: rest =>
      if c = '/' then [] :: splitSlashChars rest
      else
        match splitSlashChars rest with
        | [] => [[c]]
        | p :: ps => (c :: p) :: ps

/-- strings.Split(s, "/") from the Go standard library: "" gives [""],
"a/" gives ["a", ""], "a/b" gives ["a", "b"]. -/
def splitSlash (s : String) : List String :=
  (splitSlashChars s.data).map List.asString

/-- Numeric value of a decimal digit character. -/
def digitVal (c : Char) : Nat := c.toNat - 48

/-- Value of a list of decimal digit characters, most significant first. -/
def decDigitsToNat (l : List Char) : Nat :=
  l.foldl (fun acc c => acc * 10 + digitVal c) 0

/-- strconv.ParseInt(s, 10, 64): an optional single leading sign followed by
at least one decimal digit, with the value required to fit in a signed
64-bit integer; anything else is a parse error (`none`). -/
def parseInt64 (s : String) : Option Int :=
  let split : Bool × List Char :=
    match s.data with
    | '+' :: rest => (false, rest)
    | '-' :: rest => (true, rest)
    | l => (false, l)
  let neg := split.1
  let digits := split.2
  if digits = [] then none
  else if digits.all Char.isDigit then
    let mag := decDigitsToNat digits
    if neg then
      if mag ≤ 2 ^ 63 then some (-(mag : Int)) else none
    else if mag ≤ 2 ^ 63 - 1 then some (mag : Int) else none
  else none

/-- The orchestrator's view of the fetch client: owner, repo and alert
number to either an Alert or an error. -/
abbrev Fetch := String → String → Int → Except String Alert

/-- Outcome of the loop body of generateReport for one record: repository
format rejected, alert-number parse rejected, fetch failed, or fetched. -/
inductive RowOutcome where
  | invalidRepo
  | invalidNumber (owner repo : String)
  | fetchFailed (owner repo : String) (n : Int) (e : String)
  | fetched (owner repo : String) (n : Int) (alert : Alert)

/-- One iteration of the generateReport loop (cmd/root.go): split the
Repository field on "/" and require exactly two parts (owner and repo,
positions 0 and 1), parse the Alert Number field with ParseInt, then call
GetAlert. -/
def rowOutcome (fetch : Fetch) (record : Record) : RowOutcome :=
  match splitSlash (mapGet record "Repository") with
  | [owner, repo] =>
      match parseInt64 (mapGet record "Alert Number") with
      | none => RowOutcome.invalidNumber owner repo
      | some n =>
          match fetch owner repo n with
          | Except.error e => RowOutcome.fetchFailed owner repo n e
          | Except.ok alert => RowOutcome.fetched owner repo n alert
  | _ => RowOutcome.invalidRepo

/-- The fixed 11-column output header of generateReport. -/
def outputHeaders : List String :=
  ["Org", "Repo", "Alert ID", "Severity",
   "Short Description", "Full Description",
   "File Path", "Start Line", "Start Column",
   "End Line", "End Column"]

/-- The output row built from an Alert in generateReport, with the integer
fields formatted by strconv.Itoa. -/
def alertToCsvRow (a : Alert) : List String :=
  [a.owner, a.repo, toString a.id, a.severity, a.shortDesc, a.fullDesc,
   a.filePath, toString a.startLine, toString a.startColumn,
   toString a.endLine, toString a.endColumn]

/-- Accumulated result of the generateReport loop: the alerts slice, the
csvData slice, the processErrors counter, and the GetAlert calls issued
(owner, repo, alert number), each in order. -/
structure ReportResult where
  alerts : List Alert
  csvData : List (List String)
  processErrors : Nat
  calls : List (String × String × Int)
deriving DecidableEq

/-- The loop of generateReport over the input records: a parse failure or a
fetch failure increments processErrors and moves on; a success appends the
alert and its output row. `calls` records every GetAlert invocation. -/
def generateRows (fetch : Fetch) : List Record → ReportResult
  | [] => ⟨[], [], 0, []⟩
  | record :: rest =>
      let tail := generateRows fetch rest
      match rowOutcome fetch record with
      | RowOutcome.invalidRepo =>
          ⟨tail.alerts, tail.csvData, tail.processErrors + 1, tail.calls⟩
      | RowOutcome.invalidNumber _ _ =>
          ⟨tail.alerts, tail.csvData, tail.processErrors + 1, tail.calls⟩
      | RowOutcome.fetchFailed o r n _ =>
          ⟨tail.alerts, tail.csvData, tail.processErrors + 1, (o, r, n) :: tail.calls⟩
      | RowOutcome.fetched o r n a =>
          ⟨a :: tail.alerts, alertToCsvRow a :: tail.csvData, tail.processErrors,
           (o, r, n) :: tail.calls⟩

/-- Pointwise combination of two loop results: lists concatenate, error
counts add. -/
def combineRR (x y : ReportResult) : ReportResult :=
  ⟨x.alerts ++ y.alerts, x.csvData ++ y.csvData,
   x.processErrors + y.processErrors, x.calls ++ y.calls⟩

/-- The output row (if any) a record contributes: present exactly when the
record parses and its fetch succeeds. -/
def rowCells (fetch : Fetch) (record : Record) : Option (List String) :=
  match rowOutcome fetch record with
  | RowOutcome.fetched _ _ _ a => some (alertToCsvRow a)
  | _ => none

/-- The GetAlert calls a record triggers (at most one). -/
def rowCalls (fetch : Fetch) (record : Record) : List (String × String × Int) :=
  match rowOutcome fetch record with
  | RowOutcome.invalidRepo => []
  | RowOutcome.invalidNumber _ _ => []
  | RowOutcome.fetchFailed o r n _ => [(o, r, n)]
  | RowOutcome.fetched o r n _ => [(o, r, n)]

/-- Writer.WriteAll from pkg/csv: the produced file, record level — the
fixed header line followed by all data rows. -/
def writeAllFile (headers : List String) (records : List (List String)) :
    List (List String) :=
  headers :: records

/-- The Go map a data row becomes in ReadAllWithHeaders: assign
rowMap[header] = row[i] for each header position in order. -/
def buildRowMap (headers : List String) (row : List String) : Record :=
  (List.zip headers row).foldl (fun m kv => mapSet m kv.1 kv.2) []

/-- The row loop of Reader.ReadAllWithHeaders: each data row must have
exactly as many fields as the header line, and becomes a map keyed by the
header names. The first mismatching row fails the whole read. -/
def readRows (headers : List String) : List (List String) → Except String (List Record)
  | [] => Except.ok []
  | row :: rest =>
      if row.length ≠ headers.length then
        Except.error "row length does not match header length"
      else
        match readRows headers rest with
        | Except.error e => Except.error e
        | Except.ok recs => Except.ok (buildRowMap headers row :: recs)

/-- Reader.ReadAllWithHeaders from pkg/csv, record level: the first line is
the header; an empty file fails the header read; each remaining line becomes
a map keyed by header names. -/
def readAllWithHeaders (file : List (List String)) : Except String (List Record) :=
  match file with
  | [] => Except.error "failed to read CSV headers"
  | headers :: rows => readRows headers rows

/-- generateReport from cmd/root.go end to end: the read result is the
input oracle, the loop runs over its records, and on a successful write the
function returns the loop result together with the written file (header
plus csvData). Read and write failures wrap and propagate. -/
def generateReportGo (readResult : Except String (List Record)) (fetch : Fetch)
    (writeOk : Bool) : Except String (ReportResult × List (List String)) :=
  match readResult with
  | Except.error e => Except.error ("failed to read input CSV: " ++ e)
  | Except.ok records =>
      let rep := generateRows fetch records
      if writeOk then Except.ok (rep, writeAllFile outputHeaders rep.csvData)
      else Except.error "failed to write output CSV"

/-- The process exit decision of RootCmd.Run around generateReport: an error
exits 1, otherwise the run finishes with exit code 0. -/
def runExitCode (r : Except String (ReportResult × List (List String))) : Nat :=
  match r with
  | Except.ok _ => 0
  | Except.error _ => 1

/-- The record a written alert row reads back as, under the fixed header. -/
def recordOfAlert (a : Alert) : Record :=
  buildRowMap outputHeaders (alertToCsvRow a)

/-- A fetch oracle that always fails, for concrete runs. -/
def fetchStub : Fetch := fun _ _ _ => Except.error "stub"

/-- A fetch oracle that always succeeds with a canned alert, for concrete
runs. -/
def fetchConst : Fetch := fun o r n =>
  Except.ok (mkAlert o r ⟨n, "high", "d", "f", ⟨"p", 1, 2, 3, 4⟩⟩)

/-- A canned GitHub alert for concrete runs. -/
def gh0 : GHAlert := ⟨7, "high", "short", "full", ⟨"p.go", 1, 2, 3, 4⟩⟩

/-- The trace of a single successful GetAlert attempt on gh0 with rate
99 remaining / reset 50, started at instant 0. -/
def c3res : GetAlertResult :=
  { result := Except.ok (mkAlert "o" "r" gh0)
    okResp := some ⟨200, ⟨99, 50⟩⟩
    finalState := ⟨some ⟨99, 50⟩⟩
    requests := 1
    sleeps := []
    rateUpdates := [⟨99, 50⟩]
    returnTime := 0 }

theorem getAlertGo_time_mono (owner repo : String) (n : Int) (st : ClientState) :
    ∀ (attempts : List Attempt) (now : Int) (res : GetAlertResult),
      getAlertGo owner repo n st now attempts = some res → now ≤ res.returnTime := by
  intro attempts
  induction attempts with
  | nil =>
      intro now res h
      simp [getAlertGo] at h
  | cons a rest ih =>
      intro now res h
      cases a with
      | ok gh resp =>
          simp only [getAlertGo, Option.some.injEq] at h
          subst h
          exact le_refl now
      | fail resp err =>
          cases resp with
          | none =>
              simp only [getAlertGo, Option.some.injEq] at h
              subst h
              exact le_refl now
          | some r =>
              by_cases hc : isRateLimitCase (some r) now = true
              · rw [getAlertGo, if_pos hc] at h
                cases hx : getAlertGo owner repo n st r.rate.reset rest with
                | none => rw [hx] at h; simp at h
                | some res' =>
                    rw [hx] at h
                    simp only [Option.map_some', Option.some.injEq] at h
                    subst h
                    have h1 := ih r.rate.reset res' hx
                    have h2 : now < r.rate.reset := by
                      simp only [isRateLimitCase, Bool.and_eq_true, decide_eq_true_eq] at hc
                      exact hc.2
                    simpa using le_trans (le_of_lt h2) h1
              · rw [getAlertGo, if_neg hc] at h
                simp only [Option.some.injEq] at h
                subst h
                exact le_refl now

theorem getAlertGo_none_of_allRateLimited (owner repo : String) (n : Int)
    (st : ClientState) :
    ∀ (attempts : List Attempt) (now : Int),
      allRateLimited now attempts = true →
      getAlertGo owner repo n st now attempts = none := by
  intro attempts
  induction attempts with
  | nil => intro now _; rfl
  | cons a rest ih =>
      intro now h
      cases a with
      | ok gh resp => simp [allRateLimited] at h
      | fail resp err =>
          cases resp with
          | none => simp [allRateLimited] at h
          | some r =>
              simp only [allRateLimited, Bool.and_eq_true] at h
              rw [getAlertGo, if_pos h.1, ih r.rate.reset h.2]
              rfl

theorem generateRows_append (fetch : Fetch) (xs ys : List Record) :
    generateRows fetch (xs ++ ys) =
      combineRR (generateRows fetch xs) (generateRows fetch ys) := by
  induction xs with
  | nil => simp [generateRows, combineRR]
  | cons record xs ih =>
      simp only [List.cons_append, generateRows, ih]
      cases hro : rowOutcome fetch record <;> simp [combineRR, ih] <;> omega

theorem rowOutcome_invalidRepo_of_len (f : Fetch) (rec : Record)
    (h : (splitSlash (mapGet rec "Repository")).length ≠ 2) :
    rowOutcome f rec = RowOutcome.invalidRepo := by
  cases hs : splitSlash (mapGet rec "Repository") with
  | nil => simp [rowOutcome, hs]
  | cons a t =>
      cases t with
      | nil => simp [rowOutcome, hs]
      | cons b t2 =>
          cases t2 with
          | nil => exact absurd (by rw [hs]; rfl) h
          | cons c t3 => simp [rowOutcome, hs]

theorem exists_pair_of_len2 {l : List String} (h : l.length = 2) :
    ∃ a b, l = [a, b] := by
  match l, h with
  | [a, b], _ => exact ⟨a, b, rfl⟩

theorem rowCalls_parse (f : Fetch) (rec : Record) (o rp : String) (m : Int)
    (hm : (o, rp, m) ∈ rowCalls f rec) :
    parseInt64 (mapGet rec "Alert Number") = some m := by
  cases hs : splitSlash (mapGet rec "Repository") with
  | nil => simp [rowCalls, rowOutcome, hs] at hm
  | cons a t =>
      cases t with
      | nil => simp [rowCalls, rowOutcome, hs] at hm
      | cons b t2 =>
          cases t2 with
          | cons c t3 => simp [rowCalls, rowOutcome, hs] at hm
          | nil =>
              cases hp : parseInt64 (mapGet rec "Alert Number") with
              | none => simp [rowCalls, rowOutcome, hs, hp] at hm
              | some mv =>
                  cases hf : f a b mv with
                  | error e =>
                      simp [rowCalls, rowOutcome, hs, hp, hf] at hm
                      rw [hm.2.2]
                  | ok al =>
                      simp [rowCalls, rowOutcome, hs, hp, hf] at hm
                      rw [hm.2.2]

/-- C1: when the alert-lookup attempt fails with HTTP 403, zero remaining
quota and a reset time strictly in the future, GetAlert does not return
before that reset time; it sleeps exactly reset − now and re-issues the
identical request (same owner, repo and alert number, unchanged state)
exactly once for that signal; and as long as every attempt produces such a
signal the loop never gives up (no retry cap). -/
theorem getAlert_rate_limit_wait_and_retry
    (owner repo : String) (n : Int) (st : ClientState) (now : Int)
    (r : Response) (err : String) (rest : List Attempt)
    (h403 : r.statusCode = 403) (hrem : r.rate.remaining = 0)
    (hfut : now < r.rate.reset) :
    (∀ res, getAlertGo owner repo n st now (Attempt.fail (some r) err :: rest) =
        some res → r.rate.reset ≤ res.returnTime) ∧
    getAlertGo owner repo n st now (Attempt.fail (some r) err :: rest) =
      (getAlertGo owner repo n st r.rate.reset rest).map (fun res =>
        { res with
            requests := res.requests + 1
            sleeps := (r.rate.reset - now) :: res.sleeps }) ∧
    (∀ (t : Int) (attempts : List Attempt), allRateLimited t attempts = true →
        getAlertGo owner repo n st t attempts = none) := by
  have hc : isRateLimitCase (some r) now = true := by
    simp [isRateLimitCase, h403, hrem, hfut]
  have heq : getAlertGo owner repo n st now (Attempt.fail (some r) err :: rest) =
      (getAlertGo owner repo n st r.rate.reset rest).map (fun res =>
        { res with
            requests := res.requests + 1
            sleeps := (r.rate.reset - now) :: res.sleeps }) := by
    rw [getAlertGo, if_pos hc]
  refine ⟨?_, heq, fun t attempts h =>
    getAlertGo_none_of_allRateLimited owner repo n st attempts t h⟩
  intro res h
  rw [heq] at h
  cases hx : getAlertGo owner repo n st r.rate.reset rest with
  | none => rw [hx] at h; simp at h
  | some res' =>
      rw [hx] at h
      simp only [Option.map_some', Option.some.injEq] at h
      subst h
      simpa using getAlertGo_time_mono owner repo n st rest r.rate.reset res' hx

/-- Witness for C1 at a concrete rate-limited attempt (403, remaining 0,
reset 10, started at instant 0). -/
theorem getAlert_rate_limit_wait_and_retry_witness :
    (Response.mk 403 ⟨0, 10⟩).statusCode = 403 ∧
    (Response.mk 403 ⟨0, 10⟩).rate.remaining = 0 ∧
    ((0 : Int) < (Response.mk 403 ⟨0, 10⟩).rate.reset) ∧
    ((∀ res, getAlertGo "o" "r" 1 ⟨none⟩ 0
          [Attempt.fail (some (Response.mk 403 ⟨0, 10⟩)) "e"] = some res →
        (Response.mk 403 ⟨0, 10⟩).rate.reset ≤ res.returnTime) ∧
      getAlertGo "o" "r" 1 ⟨none⟩ 0
          [Attempt.fail (some (Response.mk 403 ⟨0, 10⟩)) "e"] =
        (getAlertGo "o" "r" 1 ⟨none⟩ (Response.mk 403 ⟨0, 10⟩).rate.reset []).map
          (fun res =>
            { res with
                requests := res.requests + 1
                sleeps := ((Response.mk 403 ⟨0, 10⟩).rate.reset - 0) :: res.sleeps }) ∧
      (∀ (t : Int) (attempts : List Attempt), allRateLimited t attempts = true →
          getAlertGo "o" "r" 1 ⟨none⟩ t attempts = none)) :=
  ⟨rfl, rfl, by decide,
    getAlert_rate_limit_wait_and_retry "o" "r" 1 ⟨none⟩ 0
      (Response.mk 403 ⟨0, 10⟩) "e" [] rfl rfl (by decide)⟩

/-- C7: a failed attempt that is not the rate-limit-exhausted case (no
response, wrong status, quota left, or reset not in the future) makes
GetAlert return at once: one request, no sleeping, the error wrapped as
"failed to get alert: ...", and the client state unchanged. -/
theorem non_rate_limit_failure_immediate
    (owner repo : String) (n : Int) (st : ClientState) (now : Int)
    (resp : Option Response) (err : String) (rest : List Attempt)
    (h : isRateLimitCase resp now = false) :
    getAlertGo owner repo n st now (Attempt.fail resp err :: rest) =
      some
        { result := Except.error ("failed to get alert: " ++ err)
          okResp := none
          finalState := st
          requests := 1
          sleeps := []
          rateUpdates := []
          returnTime := now } := by
  cases resp with
  | none => rw [getAlertGo]; rfl
  | some r =>
      have h' : ¬ isRateLimitCase (some r) now = true := by simp [h]
      rw [getAlertGo, if_neg h']
      rfl

/-- Witness for C7 at a concrete 404 failure. -/
theorem non_rate_limit_failure_immediate_witness :
    isRateLimitCase (some (Response.mk 404 ⟨42, 100⟩)) 0 = false ∧
    getAlertGo "o" "r" 1 ⟨none⟩ 0
        [Attempt.fail (some (Response.mk 404 ⟨42, 100⟩)) "boom"] =
      some
        { result := Except.error ("failed to get alert: " ++ "boom")
          okResp := none
          finalState := ⟨none⟩
          requests := 1
          sleeps := []
          rateUpdates := []
          returnTime := 0 } :=
  ⟨by decide,
    non_rate_limit_failure_immediate "o" "r" 1 ⟨none⟩ 0
      (some (Response.mk 404 ⟨42, 100⟩)) "boom" [] (by decide)⟩

/-- C3 counterexample: a run whose first attempt is a rate-limited failure
(rate: remaining 0, reset 5) and whose second attempt succeeds (rate:
remaining 99, reset 50) issues two requests but records exactly one
lastRate update, and the rate of the rate-limited attempt is never stored —
so lastRate is not updated after every attempt. -/
theorem lastRate_not_updated_on_rate_limited_cex :
    (getAlertGo "o" "r" 1 ⟨none⟩ 0
        [Attempt.fail (some ⟨403, ⟨0, 5⟩⟩) "rate limited",
         Attempt.ok gh0 (some ⟨200, ⟨99, 50⟩⟩)]).map
      (fun res => (res.requests, res.rateUpdates)) = some (2, [⟨99, 50⟩]) ∧
    (⟨0, 5⟩ : Rate) ∉ [(⟨99, 50⟩ : Rate)] := by
  constructor
  · rfl
  · decide

/-- C3 amended: lastRate is updated only by a successful attempt that
carries a response, and is then set to that response's rate; every failing
attempt — rate-limited or not — leaves lastRate unchanged, so a whole
GetAlert call performs at most one update. -/
theorem lastRate_updated_only_on_success
    (owner repo : String) (n : Int) (st : ClientState) :
    ∀ (attempts : List Attempt) (now : Int) (res : GetAlertResult),
      getAlertGo owner repo n st now attempts = some res →
      res.finalState.lastRate =
        (match res.okResp with
         | some r => some r.rate
         | none => st.lastRate) ∧
      res.rateUpdates =
        (match res.okResp with
         | some r => [r.rate]
         | none => []) := by
  intro attempts
  induction attempts with
  | nil => intro now res h; simp [getAlertGo] at h
  | cons a rest ih =>
      intro now res h
      cases a with
      | ok gh resp =>
          simp only [getAlertGo, Option.some.injEq] at h
          subst h
          cases resp <;> simp
      | fail resp err =>
          cases resp with
          | none =>
              simp only [getAlertGo, Option.some.injEq] at h
              subst h
              simp [immediateFail]
          | some r =>
              by_cases hc : isRateLimitCase (some r) now = true
              · rw [getAlertGo, if_pos hc] at h
                cases hx : getAlertGo owner repo n st r.rate.reset rest with
                | none => rw [hx] at h; simp at h
                | some res' =>
                    rw [hx] at h
                    simp only [Option.map_some', Option.some.injEq] at h
                    subst h
                    simpa using ih r.rate.reset res' hx
              · rw [getAlertGo, if_neg hc] at h
                simp only [Option.some.injEq] at h
                subst h
                simp [immediateFail]

/-- Witness for C3 amended at a concrete single successful attempt. -/
theorem lastRate_updated_only_on_success_witness :
    getAlertGo "o" "r" 1 ⟨none⟩ 0 [Attempt.ok gh0 (some ⟨200, ⟨99, 50⟩⟩)] =
      some c3res ∧
    (c3res.finalState.lastRate =
        (match c3res.okResp with
         | some r => some r.rate
         | none => (⟨none⟩ : ClientState).lastRate) ∧
      c3res.rateUpdates =
        (match c3res.okResp with
         | some r => [r.rate]
         | none => [])) :=
  ⟨rfl,
    lastRate_updated_only_on_success "o" "r" 1 ⟨none⟩
      [Attempt.ok gh0 (some ⟨200, ⟨99, 50⟩⟩)] 0 c3res rfl⟩

/-- C2: for every input of N records the loop's output rows are exactly the
in-order selection of the rows whose fetch succeeded (filterMap over the
input, so each output row comes from a distinct input row, in the original
relative order, with failing rows dropped without a placeholder), and there
are at most N of them. -/
theorem report_rows_in_order (fetch : Fetch) (records : List Record) :
    (generateRows fetch records).csvData = records.filterMap (rowCells fetch) ∧
    (generateRows fetch records).csvData.length ≤ records.length := by
  have h : ∀ rs : List Record,
      (generateRows fetch rs).csvData = rs.filterMap (rowCells fetch) := by
    intro rs
    induction rs with
    | nil => rfl
    | cons record rest ih =>
        simp only [generateRows, List.filterMap_cons]
        cases hro : rowOutcome fetch record <;> simp [rowCells, hro, ih]
  refine ⟨h records, ?_⟩
  rw [h records]
  exact List.length_filterMap_le _ _

/-- C10: accounting invariant of the loop — every input record either
becomes exactly one output row or is counted as exactly one processing
error, so output rows plus errors equals the number of input records. -/
theorem row_accounting_invariant (fetch : Fetch) (records : List Record) :
    (generateRows fetch records).csvData.length +
      (generateRows fetch records).processErrors = records.length := by
  induction records with
  | nil => rfl
  | cons record rest ih =>
      simp only [generateRows]
      cases hro : rowOutcome fetch record <;> simp <;> omega

/-- C5 counterexample: the repository field "a/", whose second `/`-segment
is empty, is not rejected — the loop records no processing error for it and
a fetch with owner "a" and empty repo is attempted, contradicting the claim
that any field without exactly two non-empty segments is skipped with no
fetch. -/
theorem empty_segment_repo_fetch_attempted_cex :
    (generateRows fetchConst [[("Repository", "a/"), ("Alert Number", "5")]]).processErrors
      = 0 ∧
    (generateRows fetchConst [[("Repository", "a/"), ("Alert Number", "5")]]).calls
      = [("a", "", 5)] := by
  exact ⟨rfl, rfl⟩

/-- C5 amended: a record whose repository field does not split on `/` into
exactly two segments (segments may be empty — only the count is checked)
contributes exactly one processing error, no output row and no fetch call,
and the loop continues with the remaining records. -/
theorem malformed_repo_skipped_no_fetch
    (fetch : Fetch) (pre : List Record) (record : Record) (rest : List Record)
    (h : (splitSlash (mapGet record "Repository")).length ≠ 2) :
    generateRows fetch (pre ++ record :: rest) =
      combineRR (generateRows fetch pre)
        (combineRR ⟨[], [], 1, []⟩ (generateRows fetch rest)) := by
  have hro := rowOutcome_invalidRepo_of_len fetch record h
  rw [generateRows_append]
  congr 1
  simp [generateRows, hro, combineRR, Nat.add_comm]

/-- Witness for C5 amended at the concrete record (bad-format, 5). -/
theorem malformed_repo_skipped_no_fetch_witness :
    ((splitSlash (mapGet [("Repository", "bad-format"), ("Alert Number", "5")]
        "Repository")).length ≠ 2) ∧
    generateRows fetchStub
        ([] ++ [("Repository", "bad-format"), ("Alert Number", "5")] :: []) =
      combineRR (generateRows fetchStub [])
        (combineRR ⟨[], [], 1, []⟩ (generateRows fetchStub [])) :=
  ⟨by decide,
    malformed_repo_skipped_no_fetch fetchStub []
      [("Repository", "bad-format"), ("Alert Number", "5")] [] (by decide)⟩

/-- C6 counterexample: the alert-number field "-5" is numeric but negative,
yet the loop attempts a fetch with alert number −5 — contradicting the
claim that a fetch is attempted only for a non-negative value. -/
theorem negative_alert_number_fetch_attempted_cex :
    (generateRows fetchStub [[("Repository", "a/b"), ("Alert Number", "-5")]]).calls
      = [("a", "b", -5)] ∧
    ((-5 : Int) < 0) := by
  exact ⟨rfl, by decide⟩

/-- C6 amended: a record (with a well-formed repository field) whose
alert-number field does not parse as a signed 64-bit decimal integer
contributes exactly one processing error, no output row and no fetch call,
and the loop continues; conversely every fetch call the loop issues carries
an alert number obtained from a successful parse of that record's
alert-number field. -/
theorem nonnumeric_alert_number_skipped
    (fetch : Fetch) (pre : List Record) (record : Record) (rest : List Record)
    (hrepo : (splitSlash (mapGet record "Repository")).length = 2)
    (hnum : parseInt64 (mapGet record "Alert Number") = none) :
    (generateRows fetch (pre ++ record :: rest) =
      combineRR (generateRows fetch pre)
        (combineRR ⟨[], [], 1, []⟩ (generateRows fetch rest))) ∧
    (∀ (f : Fetch) (rec : Record) (o rp : String) (m : Int),
        (o, rp, m) ∈ rowCalls f rec →
        parseInt64 (mapGet rec "Alert Number") = some m) := by
  refine ⟨?_, rowCalls_parse⟩
  obtain ⟨a, b, hs⟩ := exists_pair_of_len2 hrepo
  have hro : rowOutcome fetch record = RowOutcome.invalidNumber a b := by
    simp [rowOutcome, hs, hnum]
  rw [generateRows_append]
  congr 1
  simp [generateRows, hro, combineRR, Nat.add_comm]

/-- Witness for C6 amended at the concrete record (a/b, x). -/
theorem nonnumeric_alert_number_skipped_witness :
    ((splitSlash (mapGet [("Repository", "a/b"), ("Alert Number", "x")]
        "Repository")).length = 2) ∧
    (parseInt64 (mapGet [("Repository", "a/b"), ("Alert Number", "x")]
        "Alert Number") = none) ∧
    ((generateRows fetchStub
          ([] ++ [("Repository", "a/b"), ("Alert Number", "x")] :: []) =
        combineRR (generateRows fetchStub [])
          (combineRR ⟨[], [], 1, []⟩ (generateRows fetchStub []))) ∧
      (∀ (f : Fetch) (rec : Record) (o rp : String) (m : Int),
          (o, rp, m) ∈ rowCalls f rec →
          parseInt64 (mapGet rec "Alert Number") = some m)) :=
  ⟨by decide, by decide,
    nonnumeric_alert_number_skipped fetchStub []
      [("Repository", "a/b"), ("Alert Number", "x")] [] (by decide) (by decide)⟩

/-- C4: at the failing input — a single well-formed row (o/r, 1) whose
fetch fails with the context-deadline-exceeded error — generateReport
counts the failure as an ordinary per-row processing error, still writes
the report (header only) and the run exits 0; the deadline is not treated
as a fatal error for the run. -/
theorem deadline_error_counted_per_row_not_fatal :
    generateReportGo (Except.ok [[("Repository", "o/r"), ("Alert Number", "1")]])
        (fun _ _ _ => Except.error "context deadline exceeded") true =
      Except.ok (⟨[], [], 1, [("o", "r", 1)]⟩, [outputHeaders]) ∧
    runExitCode
        (generateReportGo (Except.ok [[("Repository", "o/r"), ("Alert Number", "1")]])
          (fun _ _ _ => Except.error "context deadline exceeded") true) = 0 := by
  exact ⟨rfl, rfl⟩

/-- C8: per-row processing errors never change the run's outcome — for
every record list and fetch oracle, when the write step succeeds the run
returns the report and exits 0; in particular the single-row input
(bad-format, 5) yields a header-only output file, a processing-error count
of 1, and exit code 0. -/
theorem row_errors_do_not_change_outcome :
    (∀ (records : List Record) (fetch : Fetch),
        generateReportGo (Except.ok records) fetch true =
          Except.ok (generateRows fetch records,
            outputHeaders :: (generateRows fetch records).csvData) ∧
        runExitCode (generateReportGo (Except.ok records) fetch true) = 0) ∧
    (∀ fetch : Fetch,
        generateReportGo
            (Except.ok [[("Repository", "bad-format"), ("Alert Number", "5")]])
            fetch true =
          Except.ok (⟨[], [], 1, []⟩, [outputHeaders]) ∧
        runExitCode
            (generateReportGo
              (Except.ok [[("Repository", "bad-format"), ("Alert Number", "5")]])
              fetch true) = 0) := by
  constructor
  · intro records fetch
    exact ⟨rfl, rfl⟩
  · intro fetch
    have hro : rowOutcome fetch [("Repository", "bad-format"), ("Alert Number", "5")] =
        RowOutcome.invalidRepo :=
      rowOutcome_invalidRepo_of_len fetch
        [("Repository", "bad-format"), ("Alert Number", "5")] (by decide)
    constructor
    · simp [generateReportGo, generateRows, hro, writeAllFile]
    · simp [runExitCode, generateReportGo, generateRows, hro]

theorem readRows_round (alerts : List Alert) :
    readRows outputHeaders (alerts.map alertToCsvRow) =
      Except.ok (alerts.map recordOfAlert) := by
  induction alerts with
  | nil => rfl
  | cons a as ih =>
      simp only [List.map_cons, readRows]
      rw [if_neg (by simp [alertToCsvRow, outputHeaders] :
        ¬((alertToCsvRow a).length ≠ outputHeaders.length))]
      rw [ih]
      rfl

/-- C9: round-trip — writing any report's rows under the fixed 11-column
header and re-reading the file yields one record per alert, and each
record's cell value at every fixed header name equals the corresponding
Alert field, with the integer fields formatted by Itoa. -/
theorem writer_reader_round_trip (alerts : List Alert) :
    readAllWithHeaders (writeAllFile outputHeaders (alerts.map alertToCsvRow)) =
      Except.ok (alerts.map recordOfAlert) ∧
    ∀ a : Alert,
      mapGet (recordOfAlert a) "Org" = a.owner ∧
      mapGet (recordOfAlert a) "Repo" = a.repo ∧
      mapGet (recordOfAlert a) "Alert ID" = toString a.id ∧
      mapGet (recordOfAlert a) "Severity" = a.severity ∧
      mapGet (recordOfAlert a) "Short Description" = a.shortDesc ∧
      mapGet (recordOfAlert a) "Full Description" = a.fullDesc ∧
      mapGet (recordOfAlert a) "File Path" = a.filePath ∧
      mapGet (recordOfAlert a) "Start Line" = toString a.startLine ∧
      mapGet (recordOfAlert a) "Start Column" = toString a.startColumn ∧
      mapGet (recordOfAlert a) "End Line" = toString a.endLine ∧
      mapGet (recordOfAlert a) "End Column" = toString a.endColumn := by
  refine ⟨readRows_round alerts, ?_⟩
  intro a
  exact ⟨rfl, rfl, rfl, rfl, rfl, rfl, rfl, rfl, rfl, rfl, rfl⟩

end CodeqlReport
